import Mathlib

/-!
Verification of the o3_mutant chat/GitHub proxy server against its
natural-language specification.

The definitions below are a shallow embedding of the TypeScript source:
  - src/shared/schema.ts      (table rows, insert schemas, cascade rules)
  - src/server/storage.ts     (DatabaseStorage methods)
  - src/server/github.ts      (POST /api/chat handler, registerRoutes)
  - src/server/github-routes.ts (GitHub REST endpoints)
  - src/client/src/lib/openai.ts (parseAIResponse)
Timestamps are modelled as naturals, database tables as lists of rows,
and the external services (OpenAI, GitHub) as explicit oracle parameters.
-/

/-! ## System prompts (src/shared/schema.ts systemPrompts, src/server/storage.ts) -/

/-- A row of the system_prompts table: id serial pk, name (default
"Custom Prompt"), content, isDefault (default false), createdAt. -/
structure SystemPromptRow where
  id : Nat
  name : String
  content : String
  isDefault : Bool
  createdAt : Nat
deriving DecidableEq

/-- Insert payload accepted by insertSystemPromptSchema: picks name, content,
isDefault; name and isDefault have column defaults so they may be omitted. -/
structure InsertSystemPrompt where
  name : Option String
  content : String
  isDefault : Option Bool
deriving DecidableEq

/-- Partial update payload for updateSystemPrompt (Partial of the insert type):
absent fields leave the column unchanged (drizzle ignores undefined in set). -/
structure UpdateSystemPrompt where
  name : Option String
  content : Option String
  isDefault : Option Bool
deriving DecidableEq

/-- The system_prompts table plus the serial id counter. -/
structure PromptTable where
  rows : List SystemPromptRow
  nextId : Nat
deriving DecidableEq

/-- JS truthiness of an optional boolean field, as in the source's
if (prompt.isDefault) check: only a present true value is truthy. -/
def truthyB : Option Bool → Bool
  | some b => b
  | none => false

/-- db.update(systemPrompts).set(isDefault false).where(eq(isDefault, true)):
clear the isDefault flag on every row that has it set. -/
def clearDefaults (rows : List SystemPromptRow) : List SystemPromptRow :=
  rows.map (fun r => if r.isDefault then { r with isDefault := false } else r)

/-- DatabaseStorage.createSystemPrompt (storage.ts lines 145-156): if the
insert is default, first unset all existing defaults, then insert the row
(with the column defaults for omitted fields). -/
def createSystemPrompt (p : InsertSystemPrompt) (now : Nat) (t : PromptTable) :
    SystemPromptRow × PromptTable :=
  let rows := if truthyB p.isDefault then clearDefaults t.rows else t.rows
  let row : SystemPromptRow :=
    { id := t.nextId
      name := p.name.getD "Custom Prompt"
      content := p.content
      isDefault := p.isDefault.getD false
      createdAt := now }
  (row, { rows := rows ++ [row], nextId := t.nextId + 1 })

/-- Apply a partial update to one row (drizzle set skips absent fields). -/
def applyPromptUpdate (u : UpdateSystemPrompt) (r : SystemPromptRow) : SystemPromptRow :=
  { r with
      name := u.name.getD r.name
      content := u.content.getD r.content
      isDefault := u.isDefault.getD r.isDefault }

/-- DatabaseStorage.updateSystemPrompt (storage.ts lines 158-174): if the
update sets isDefault (truthy), first unset all defaults, then update the
row matching the id and return it. -/
def updateSystemPrompt (i : Nat) (u : UpdateSystemPrompt) (t : PromptTable) :
    Option SystemPromptRow × PromptTable :=
  let rows := if truthyB u.isDefault then clearDefaults t.rows else t.rows
  let rows2 := rows.map (fun r => if r.id == i then applyPromptUpdate u r else r)
  (rows2.find? (fun r => r.id == i), { t with rows := rows2 })

/-- DatabaseStorage.deleteSystemPrompt (storage.ts lines 176-185): select the
row; if it exists and is the default, throw; otherwise delete by id and
return true.  The thrown error leaves the table unchanged. -/
def deleteSystemPrompt (i : Nat) (t : PromptTable) :
    Except String Bool × PromptTable :=
  match t.rows.find? (fun r => r.id == i) with
  | some r =>
      if r.isDefault then
        (Except.error "Cannot delete the default system prompt", t)
      else
        (Except.ok true, { t with rows := t.rows.filter (fun r => r.id != i) })
  | none =>
      (Except.ok true, { t with rows := t.rows.filter (fun r => r.id != i) })

/-- Number of rows flagged as default. -/
def countDefaults (rows : List SystemPromptRow) : Nat :=
  (rows.filter (fun r => r.isDefault)).length

/-- The single-default invariant: at most one row has isDefault = true. -/
def atMostOneDefault (t : PromptTable) : Prop := countDefaults t.rows ≤ 1

/-- Primary-key well-formedness: the serial ids are pairwise distinct. -/
def promptIdsNodup (t : PromptTable) : Prop :=
  (t.rows.map SystemPromptRow.id).Nodup

/-! ## Chat sessions and messages (src/shared/schema.ts, src/server/storage.ts) -/

/-- A row of the chat_sessions table. -/
structure ChatSessionRow where
  id : Nat
  name : Option String
  createdAt : Nat
  updatedAt : Nat
deriving DecidableEq

/-- A row of the messages table. -/
structure MessageRow where
  id : Nat
  sessionId : Nat
  role : String
  content : String
  tokenCount : Option Nat
  timestamp : Nat
deriving DecidableEq

/-- Insert payload accepted by insertMessageSchema:
sessionId, role, content, tokenCount. -/
structure InsertMessage where
  sessionId : Nat
  role : String
  content : String
  tokenCount : Option Nat
deriving DecidableEq

/-- The chat-side database: sessions, messages and the message id counter. -/
structure ChatStore where
  sessions : List ChatSessionRow
  messages : List MessageRow
  nextMessageId : Nat
deriving DecidableEq

/-- DatabaseStorage.createMessage (storage.ts lines 118-128): insert the
message row, then update chat_sessions.updatedAt where id = message.sessionId. -/
def createMessage (m : InsertMessage) (now : Nat) (db : ChatStore) :
    MessageRow × ChatStore :=
  let row : MessageRow :=
    { id := db.nextMessageId
      sessionId := m.sessionId
      role := m.role
      content := m.content
      tokenCount := m.tokenCount
      timestamp := now }
  (row,
    { sessions := db.sessions.map
        (fun s => if s.id == m.sessionId then { s with updatedAt := now } else s)
      messages := db.messages ++ [row]
      nextMessageId := db.nextMessageId + 1 })

/-! ## GitHub tables (src/shared/schema.ts, src/server/storage.ts,
src/server/github-routes.ts) -/

/-- A row of the github_credentials table (token stored in plaintext). -/
structure GithubCredentialsRow where
  id : Nat
  username : String
  token : String
  createdAt : Nat
  updatedAt : Nat
deriving DecidableEq

/-- A row of the github_repositories table; credentialsId references
github_credentials.id with onDelete cascade. -/
structure GithubRepositoryRow where
  id : Nat
  credentialsId : Nat
  owner : String
  repo : String
  defaultBranch : Option String
  lastAnalyzed : Option Nat
  summary : Option String
  createdAt : Nat
  updatedAt : Nat
deriving DecidableEq

/-- A row of the github_file_changes table; repositoryId references
github_repositories.id with onDelete cascade; status defaults to pending. -/
structure GithubFileChangeRow where
  id : Nat
  repositoryId : Nat
  path : String
  content : String
  commitMessage : String
  status : String
  commitUrl : Option String
  createdAt : Nat
  updatedAt : Nat
deriving DecidableEq

/-- The GitHub-side database state. -/
structure GithubStore where
  credentials : List GithubCredentialsRow
  repositories : List GithubRepositoryRow
  fileChanges : List GithubFileChangeRow
  nextId : Nat
deriving DecidableEq

/-- Insert payload accepted by insertGithubFileChangeSchema: it picks only
repositoryId, path, content and commitMessage — status cannot be supplied. -/
structure InsertGithubFileChange where
  repositoryId : Nat
  path : String
  content : String
  commitMessage : String
deriving DecidableEq

/-- DatabaseStorage.createGithubFileChange (storage.ts lines 290-296): insert
the payload plus updatedAt; the omitted status column takes the table default
"pending" and commitUrl is null. -/
def createGithubFileChange (ins : InsertGithubFileChange) (now : Nat)
    (db : GithubStore) : GithubFileChangeRow × GithubStore :=
  let row : GithubFileChangeRow :=
    { id := db.nextId
      repositoryId := ins.repositoryId
      path := ins.path
      content := ins.content
      commitMessage := ins.commitMessage
      status := "pending"
      commitUrl := none
      createdAt := now
      updatedAt := now }
  (row, { db with fileChanges := db.fileChanges ++ [row], nextId := db.nextId + 1 })

/-- DatabaseStorage.updateGithubFileChangeStatus (storage.ts lines 298-309):
set status, commitUrl and updatedAt on the row matching the id and return it.
commitUrl is an optional argument; drizzle drops undefined values from set,
so an absent commitUrl leaves the stored column unchanged. -/
def updateGithubFileChangeStatus (i : Nat) (status : String)
    (commitUrl : Option String) (now : Nat) (db : GithubStore) :
    Option GithubFileChangeRow × GithubStore :=
  let rows := db.fileChanges.map (fun f =>
    if f.id == i then
      { f with
          status := status
          commitUrl := match commitUrl with
            | some u => some u
            | none => f.commitUrl
          updatedAt := now }
    else f)
  (rows.find? (fun f => f.id == i), { db with fileChanges := rows })

/-- DatabaseStorage.deleteGithubFileChange (storage.ts lines 311-314). -/
def deleteGithubFileChange (i : Nat) (db : GithubStore) : GithubStore :=
  { db with fileChanges := db.fileChanges.filter (fun f => f.id != i) }

/-- DatabaseStorage.deleteGithubCredentials (storage.ts lines 217-221)
together with the schema's onDelete cascade (schema.ts lines 139-172):
deleting a credentials row deletes every repository referencing it and every
file change referencing one of those repositories. -/
def deleteGithubCredentials (i : Nat) (db : GithubStore) : GithubStore :=
  { db with
      credentials := db.credentials.filter (fun c => c.id != i)
      repositories := db.repositories.filter (fun r => r.credentialsId != i)
      fileChanges := db.fileChanges.filter (fun f =>
        !(db.repositories.any (fun r => r.credentialsId == i && r.id == f.repositoryId))) }

/-- Outcome reported by GithubService.commitFile (github.ts lines 133-177):
success with an optional commit html url, or failure. -/
structure CommitOutcome where
  success : Bool
  url : Option String
deriving DecidableEq

/-- POST /api/github/files/:id/commit (github-routes.ts lines 308-371):
look up the file change, its repository and its credentials (404 on any
miss), initialize the GitHub client (401 on failure), attempt the commit
once; on failure mark the row failed and answer 500, on success mark it
committed with the commit url and answer 200.  initOk and outcome are the
oracle results of the two external GitHub calls. -/
def commitEndpoint (i : Nat) (initOk : Bool) (outcome : CommitOutcome)
    (now : Nat) (db : GithubStore) : Nat × GithubStore :=
  match db.fileChanges.find? (fun f => f.id == i) with
  | none => (404, db)
  | some fc =>
    match db.repositories.find? (fun r => r.id == fc.repositoryId) with
    | none => (404, db)
    | some repo =>
      match db.credentials.find? (fun c => c.id == repo.credentialsId) with
      | none => (404, db)
      | some _ =>
        if !initOk then (401, db)
        else if !outcome.success then
          (500, (updateGithubFileChangeStatus i "failed" none now db).2)
        else
          (200, (updateGithubFileChangeStatus i "committed" outcome.url now db).2)

/-- Every stored file change has one of the three legal status values. -/
def statusInvariant (db : GithubStore) : Prop :=
  ∀ f ∈ db.fileChanges,
    f.status = "pending" ∨ f.status = "committed" ∨ f.status = "failed"

/-- The shape of an element of the GET /api/github/credentials response:
only id, username, createdAt, updatedAt — never the token. -/
structure SafeCredential where
  id : Nat
  username : String
  createdAt : Nat
  updatedAt : Nat
deriving DecidableEq

/-- GET /api/github/credentials (github-routes.ts lines 45-62): map every
stored credentials row to its safe projection. -/
def listCredentialsEndpoint (db : GithubStore) : List SafeCredential :=
  db.credentials.map (fun c =>
    { id := c.id, username := c.username, createdAt := c.createdAt, updatedAt := c.updatedAt })

/-! ## POST /api/chat (src/server/github.ts lines 375-505) -/

/-- A JSON message object from the request body; none models an absent
field (a non-string JSON value is out of scope of the claims). -/
structure ChatMessageJson where
  role : Option String
  content : Option String
deriving DecidableEq

/-- The messages field of the request body: a JSON array, or present but
not an array. -/
inductive MessagesField
  | arr (msgs : List ChatMessageJson)
  | notArray
deriving DecidableEq

/-- POST /api/chat request body: messages, systemPrompt, sessionId. -/
structure ChatRequestBody where
  messages : Option MessagesField
  systemPrompt : Option String
  sessionId : Option Nat
deriving DecidableEq

/-- JS falsiness of an optional string field, as in !message.role:
absent (undefined) or the empty string. -/
def jsFalsyStr : Option String → Bool
  | none => true
  | some s => s == ""

/-- The per-message validation loop (github.ts lines 412-420): the first
failing check wins; a missing role/content reports "Invalid message format",
a role outside user/assistant/system reports "Invalid message role". -/
def validateMessages : List ChatMessageJson → Option String
  | [] => none
  | m :: rest =>
    if jsFalsyStr m.role || jsFalsyStr m.content then some "Invalid message format"
    else if !(["user", "assistant", "system"].contains (m.role.getD "")) then
      some "Invalid message role"
    else validateMessages rest

/-- Token usage block of an OpenAI completion. -/
structure CompletionUsage where
  prompt_tokens : Nat
  completion_tokens : Nat
  total_tokens : Nat
deriving DecidableEq

/-- One choice of an OpenAI completion (message content may be null). -/
structure CompletionChoice where
  content : Option String
deriving DecidableEq

/-- The OpenAI completion payload as consumed by the handler. -/
structure Completion where
  choices : List CompletionChoice
  usage : Option CompletionUsage
deriving DecidableEq

/-- Result of the awaited OpenAI call: a completion, or a thrown error
carrying an optional numeric status field. -/
inductive OpenAIOutcome
  | ok (c : Completion)
  | err (status : Option Nat)
deriving DecidableEq

/-- Database writes the chat handler can perform. -/
inductive ChatEffect
  | createdSession (id : Nat)
  | createdMessage (sessionId : Nat) (role : String) (content : String) (tokenCount : Nat)
deriving DecidableEq

/-- HTTP reply of the handler: status code plus the message payload if any. -/
structure ChatReply where
  status : Nat
  message : Option String
deriving DecidableEq

/-- estimateTokenCount (github.ts lines 375-378): Math.ceil(length / 4). -/
def estimateTokenCount (s : String) : Nat := (s.length + 3) / 4

/-- The JS expression usage?.field || fallback: the fallback applies when
usage is absent or the stored count is 0 (JS || treats 0 as falsy). -/
def tokensOr (o : Option Nat) (fallback : Nat) : Nat :=
  match o with
  | none => fallback
  | some n => if n == 0 then fallback else n

/-- The session step (github.ts lines 422-427): a falsy sessionId (absent
or 0) creates a new session. -/
def sessionStep (sessionId : Option Nat) (newId : Nat) : Nat × List ChatEffect :=
  match sessionId with
  | some n => if n == 0 then (newId, [ChatEffect.createdSession newId]) else (n, [])
  | none => (newId, [ChatEffect.createdSession newId])

/-- The catch block of POST /api/chat (github.ts lines 491-504): map the
thrown error's status field to the reply, 500 for everything unrecognized. -/
def mapChatError (st : Option Nat) : ChatReply :=
  if st == some 401 then { status := 401, message := some "Invalid API key" }
  else if st == some 429 then { status := 429, message := some "Rate limit exceeded" }
  else if st == some 500 then { status := 500, message := some "OpenAI service error" }
  else { status := 500, message := some "Failed to process chat request" }

/-- POST /api/chat (github.ts lines 397-505).  hasApiKey models whether
OPENAI_API_KEY is configured, newSessionId the id a freshly created session
would get, ai the oracle outcome of the OpenAI call.  Returns the reply and
the database writes performed, in order.  Reading the last element of an
empty messages array throws in JS (reading role of undefined) and lands in
the catch block with no status field. -/
def chatHandler (body : ChatRequestBody) (hasApiKey : Bool) (newSessionId : Nat)
    (ai : OpenAIOutcome) : ChatReply × List ChatEffect :=
  match body.messages with
  | none => ({ status := 400, message := some "Invalid messages format" }, [])
  | some MessagesField.notArray =>
      ({ status := 400, message := some "Invalid messages format" }, [])
  | some (MessagesField.arr msgs) =>
    match validateMessages msgs with
    | some e => ({ status := 400, message := some e }, [])
    | none =>
      let se := sessionStep body.sessionId newSessionId
      if !hasApiKey then
        ({ status := 500, message := some "OpenAI API key is not configured" }, se.2)
      else
        match ai with
        | OpenAIOutcome.err st => (mapChatError st, se.2)
        | OpenAIOutcome.ok comp =>
          match msgs.getLast? with
          | none =>
              ({ status := 500, message := some "Failed to process chat request" }, se.2)
          | some lastMsg =>
            let effs2 :=
              if lastMsg.role == some "user" then
                se.2 ++ [ChatEffect.createdMessage se.1 "user" (lastMsg.content.getD "")
                  (tokensOr (comp.usage.map CompletionUsage.prompt_tokens)
                    (estimateTokenCount (lastMsg.content.getD "")))]
              else se.2
            let effs3 :=
              match comp.choices with
              | [] => effs2
              | ch :: _ =>
                if (ch.content.getD "") == "" then effs2
                else effs2 ++ [ChatEffect.createdMessage se.1 "assistant" (ch.content.getD "")
                  (tokensOr (comp.usage.map CompletionUsage.completion_tokens)
                    (estimateTokenCount (ch.content.getD "")))]
            ({ status := 200, message := none }, effs3)

/-! ## parseAIResponse (src/client/src/lib/openai.ts lines 73-95)

The four extraction regexes share one shape: find the leftmost
case-insensitive occurrence of a header, skip whitespace, one optional
dash and more whitespace, then capture lazily up to the first position
where a terminator header begins (or to the end of the string, the $
alternative of the lookahead).  Strings are modelled as character lists. -/

/-- Case-insensitive character comparison, as under the regex /i flag. -/
def ciEq (a b : Char) : Bool := a.toLower == b.toLower

/-- Does pat occur, case-insensitively, at the head of s? -/
def ciStartsWith : List Char → List Char → Bool
  | [], _ => true
  | _ :: _, [] => false
  | p :: ps, c :: cs => ciEq p c && ciStartsWith ps cs

/-- Leftmost match of a header matcher: the match offset and the number of
characters the header consumed there, scanning left to right as a JS regex
engine does. -/
def scanHeader (h : List Char → Option Nat) : List Char → Option (Nat × Nat)
  | [] => (h []).map (fun l => (0, l))
  | c :: cs =>
    match h (c :: cs) with
    | some l => some (0, l)
    | none => (scanHeader h cs).map (fun p => (p.1 + 1, p.2))

/-- A plain literal header pattern. -/
def plainHdr (pat : List Char) (s : List Char) : Option Nat :=
  if ciStartsWith pat s then some pat.length else none

/-- The JS \s character class (the members relevant to this code). -/
def jsWs (c : Char) : Bool :=
  c == ' ' || c == '\t' || c == '\n' || c == '\r' ||
    c == '\x0b' || c == '\x0c' || c == '\u00A0'

/-- The dash class [-–—] the regexes accept after a header. -/
def isDash (c : Char) : Bool := c == '-' || c == '–' || c == '—'

/-- Greedy \s*, at most one dash, greedy \s* — the separator consumed
between a header and the captured section body. -/
def skipWsDash (s : List Char) : List Char :=
  let t := s.dropWhile jsWs
  match t with
  | c :: cs => if isDash c then cs.dropWhile jsWs else t
  | [] => []

/-- Does one of the stop patterns begin, case-insensitively, here? -/
def stopsAtB (stops : List (List Char)) (s : List Char) : Bool :=
  stops.any (fun p => ciStartsWith p s)

/-- Offset of the first position at which a stop pattern begins, or the
length of the string: where the lazy capture with lookahead ends. -/
def firstStopIdx (stops : List (List Char)) : List Char → Nat
  | [] => 0
  | c :: cs => if stopsAtB stops (c :: cs) then 0 else firstStopIdx stops cs + 1

/-- String.prototype.trim over the JS whitespace class. -/
def jsTrim (s : List Char) : List Char :=
  ((s.dropWhile jsWs).reverse.dropWhile jsWs).reverse

/-- [•\-\*]\s+ at the head of s: the number of characters consumed. -/
def bulletLen (s : List Char) : Option Nat :=
  match s with
  | c :: cs =>
    if c == '•' || c == '-' || c == '*' then
      let w := (cs.takeWhile jsWs).length
      if w == 0 then none else some (1 + w)
    else none
  | [] => none

/-- The split separator (?:^|\n)[•\-\*]\s+ at the current position; atStart
says whether ^ can match here (the regex has no m flag, so ^ is only the
start of the string). -/
def sepLen (atStart : Bool) (s : List Char) : Option Nat :=
  if atStart then
    match bulletLen s with
    | some l => some l
    | none =>
      match s with
      | '\n' :: cs => (bulletLen cs).map (fun l => l + 1)
      | _ => none
  else
    match s with
    | '\n' :: cs => (bulletLen cs).map (fun l => l + 1)
    | _ => none

/-- String.prototype.split on the bullet separator, fuelled by the input
length (every step consumes at least one character). -/
def bulletSplitAux : Nat → List Char → List Char → Bool → List (List Char)
  | 0, cur, s, _ => [cur.reverse ++ s]
  | fuel + 1, cur, s, atStart =>
    match s with
    | [] => [cur.reverse]
    | c :: cs =>
      match sepLen atStart (c :: cs) with
      | some l => cur.reverse :: bulletSplitAux fuel [] ((c :: cs).drop l) false
      | none => bulletSplitAux fuel (c :: cur) cs false

/-- text.split on (?:^|\n)[•\-\*]\s+ . -/
def bulletSplit (s : List Char) : List (List Char) :=
  bulletSplitAux s.length [] s true

/-- extractBulletPoints (openai.ts lines 81-87): split on bullet markers and
drop empty pieces (filter(Boolean)). -/
def extractBulletPoints (t : List Char) : List (List Char) :=
  (bulletSplit t).filter (fun p => !p.isEmpty)

def kAnswer : List Char := "**Answer**".toList

def kSteps : List Char := "**Steps**".toList

def kNextActs : List Char := "**Next Actions**".toList

def kCitations : List Char := "**Citations**".toList

def kNextActsOpen : List Char := "**Next Actions".toList

def kOptional : List Char := "(optional)".toList

/-- The Next Actions header \*\*Next Actions(?:\s*\(optional\))?\*\* with
its optional group: consumed length when it matches at the head of s. -/
def naHdr (s : List Char) : Option Nat :=
  if ciStartsWith kNextActsOpen s then
    let rest := s.drop kNextActsOpen.length
    let w := (rest.takeWhile jsWs).length
    let afterOpt := rest.drop w
    if ciStartsWith kOptional afterOpt &&
        ciStartsWith ('*' :: '*' :: []) (afterOpt.drop kOptional.length) then
      some (kNextActsOpen.length + w + kOptional.length + 2)
    else if ciStartsWith ('*' :: '*' :: []) rest then
      some (kNextActsOpen.length + 2)
    else none
  else none

/-- The captured section: skip the header separator, then capture lazily up
to the first stop-header (or the end). -/
def sectionCapture (s : List Char) (stops : List (List Char)) : List Char :=
  let body := skipWsDash s
  body.take (firstStopIdx stops body)

/-- The result shape of parseAIResponse. -/
structure ParsedAIResponse where
  answer : Option (List Char)
  steps : List (List Char)
  nextActions : Option (List Char)
  citations : Option (List Char)
deriving DecidableEq

/-- parseAIResponse (openai.ts lines 73-95): four independent
case-insensitive regex extractions over the content; answer/nextActions/
citations are trimmed, steps is split into bullet points untrimmed. -/
def parseAIResponse (s : List Char) : ParsedAIResponse :=
  { answer := (scanHeader (plainHdr kAnswer) s).map
      (fun p => jsTrim (sectionCapture (s.drop (p.1 + p.2)) [kSteps, kNextActs, kCitations]))
    steps :=
      match scanHeader (plainHdr kSteps) s with
      | none => []
      | some p => extractBulletPoints (sectionCapture (s.drop (p.1 + p.2)) [kNextActs, kCitations])
    nextActions := (scanHeader naHdr s).map
      (fun p => jsTrim (sectionCapture (s.drop (p.1 + p.2)) [kCitations]))
    citations := (scanHeader (plainHdr kCitations) s).map
      (fun p => jsTrim (sectionCapture (s.drop (p.1 + p.2)) [])) }

/-- The **Answer** header occurs (case-insensitively) at offset i of s. -/
def answerHeaderAt (s : List Char) (i : Nat) : Prop :=
  ciStartsWith kAnswer (s.drop i) = true

/-- The **Steps** header occurs (case-insensitively) at offset i of s. -/
def stepsHeaderAt (s : List Char) (i : Nat) : Prop :=
  ciStartsWith kSteps (s.drop i) = true

/-- A terminator of the Answer capture (**Steps**, **Next Actions** or
**Citations**) begins at offset j of b. -/
def answerStopAt (b : List Char) (j : Nat) : Prop :=
  stopsAtB [kSteps, kNextActs, kCitations] (b.drop j) = true

/-- A terminator of the Steps capture (**Next Actions** or **Citations**)
begins at offset j of b. -/
def stepsStopAt (b : List Char) (j : Nat) : Prop :=
  stopsAtB [kNextActs, kCitations] (b.drop j) = true

/-- The Answer section body: what follows the header and the optional-dash
separator. -/
def answerBody (s : List Char) (i : Nat) : List Char :=
  skipWsDash (s.drop (i + kAnswer.length))

/-- The Steps section body. -/
def stepsBody (s : List Char) (i : Nat) : List Char :=
  skipWsDash (s.drop (i + kSteps.length))

/-- Concrete one-row prompt table used to instantiate the prompt theorems. -/
def wPromptTable : PromptTable := ⟨[⟨1, "Default Prompt", "base", true, 0⟩], 2⟩

/-- Concrete two-session chat store used to instantiate the message theorem. -/
def wChatStore : ChatStore := ⟨[⟨1, some "A", 0, 0⟩, ⟨2, some "B", 0, 0⟩], [], 1⟩

/-- Concrete GitHub store: one credentials row, one repository, one pending
file change. -/
def wGithubStore : GithubStore :=
  ⟨[⟨1, "u", "t", 0, 0⟩], [⟨1, 1, "o", "r", some "main", none, none, 0, 0⟩],
    [⟨1, 1, "p", "c", "m", "pending", none, 0, 0⟩], 2⟩

/-- Concrete GitHub store with two credentials chains, to instantiate the
cascade theorem. -/
def wStoreCascade : GithubStore :=
  ⟨[⟨1, "a", "t1", 0, 0⟩, ⟨2, "b", "t2", 0, 0⟩],
    [⟨1, 1, "o1", "r1", none, none, none, 0, 0⟩,
     ⟨2, 2, "o2", "r2", none, none, none, 0, 0⟩],
    [⟨1, 1, "p1", "c1", "m1", "pending", none, 0, 0⟩,
     ⟨2, 2, "p2", "c2", "m2", "pending", none, 0, 0⟩], 3⟩

/-- Two stores that differ only in the stored token value. -/
def wStoreTokA : GithubStore := ⟨[⟨1, "u", "token-a", 3, 4⟩], [], [], 2⟩

/-- Two stores that differ only in the stored token value. -/
def wStoreTokB : GithubStore := ⟨[⟨1, "u", "token-b", 3, 4⟩], [], [], 2⟩

/-- Concrete LLM output used to instantiate the parser theorem. -/
def wParseInput : List Char := "**Answer** Hi\n**Steps**\n- a\n- b".toList

instance (t : PromptTable) : Decidable (atMostOneDefault t) :=
  inferInstanceAs (Decidable (countDefaults t.rows ≤ 1))

instance (t : PromptTable) : Decidable (promptIdsNodup t) :=
  inferInstanceAs (Decidable ((t.rows.map SystemPromptRow.id).Nodup))

instance (db : GithubStore) : Decidable (statusInvariant db) :=
  inferInstanceAs (Decidable (∀ f ∈ db.fileChanges,
    f.status = "pending" ∨ f.status = "committed" ∨ f.status = "failed"))

instance (s : List Char) (i : Nat) : Decidable (answerHeaderAt s i) :=
  inferInstanceAs (Decidable (ciStartsWith kAnswer (s.drop i) = true))

instance (s : List Char) (i : Nat) : Decidable (stepsHeaderAt s i) :=
  inferInstanceAs (Decidable (ciStartsWith kSteps (s.drop i) = true))

instance (b : List Char) (j : Nat) : Decidable (answerStopAt b j) :=
  inferInstanceAs (Decidable (stopsAtB [kSteps, kNextActs, kCitations] (b.drop j) = true))

instance (b : List Char) (j : Nat) : Decidable (stepsStopAt b j) :=
  inferInstanceAs (Decidable (stopsAtB [kNextActs, kCitations] (b.drop j) = true))

theorem countDefaults_clearDefaults (rows : List SystemPromptRow) :
    countDefaults (clearDefaults rows) = 0 := by
  induction rows with
  | nil => rfl
  | cons a l ih =>
    simp only [countDefaults, clearDefaults, List.map_cons, List.filter_cons] at *
    by_cases h : a.isDefault <;> simp [h, ih]

theorem countDefaults_append (l1 l2 : List SystemPromptRow) :
    countDefaults (l1 ++ l2) = countDefaults l1 + countDefaults l2 := by
  simp [countDefaults, List.filter_append]

theorem length_filter_mono {α : Type} (l : List α) (p q : α → Bool)
    (h : ∀ a ∈ l, p a = true → q a = true) :
    (l.filter p).length ≤ (l.filter q).length := by
  induction l with
  | nil => simp
  | cons a t ih =>
    have ht : ∀ a ∈ t, p a = true → q a = true := fun x hx => h x (List.mem_cons_of_mem a hx)
    by_cases hp : p a = true
    · have hq : q a = true := h a (List.mem_cons_self a t) hp
      simp only [List.filter_cons, hp, hq, if_pos, List.length_cons]
      exact Nat.succ_le_succ (ih ht)
    · simp only [List.filter_cons, hp]
      by_cases hq : q a = true
      · simp only [hq, if_true, List.length_cons]
        exact Nat.le_succ_of_le (ih ht)
      · simp only [hq, if_false, Bool.false_eq_true, if_neg, not_false_iff]
        exact ih ht

theorem countId_le_one (l : List SystemPromptRow) (i : Nat)
    (h : (l.map SystemPromptRow.id).Nodup) :
    (l.filter (fun r => r.id == i)).length ≤ 1 := by
  induction l with
  | nil => simp
  | cons a t ih =>
    simp only [List.map_cons, List.nodup_cons] at h
    obtain ⟨hnot, hnd⟩ := h
    by_cases ha : a.id == i
    · have hai : a.id = i := by simpa using ha
      have : t.filter (fun r => r.id == i) = [] := by
        rw [List.filter_eq_nil_iff]
        intro r hr
        simp only [beq_iff_eq]
        intro hri
        exact hnot (by
          rw [List.mem_map]
          exact ⟨r, hr, by rw [hri, hai]⟩)
      simp [List.filter_cons, ha, this]
    · simp only [List.filter_cons, ha, Bool.false_eq_true, if_neg, not_false_iff]
      exact ih hnd

theorem countDefaults_append_single_false (l : List SystemPromptRow)
    (r : SystemPromptRow) (h : r.isDefault = false) :
    countDefaults (l ++ [r]) = countDefaults l := by
  rw [countDefaults_append]
  unfold countDefaults
  simp [h]

theorem truthyB_some_true {o : Option Bool} (h : truthyB o = true) : o = some true := by
  cases o with
  | none => simp [truthyB] at h
  | some b => cases b <;> simp_all [truthyB]

theorem truthyB_false_cases {o : Option Bool} (h : truthyB o = false) :
    o = none ∨ o = some false := by
  cases o with
  | none => exact Or.inl rfl
  | some b => cases b <;> simp_all [truthyB]

theorem getD_false_of_truthyB_false {o : Option Bool} (h : truthyB o = false) :
    o.getD false = false := by
  rcases truthyB_false_cases h with h1 | h1 <;> simp [h1]

theorem clearDefaults_mem_isDefault {l : List SystemPromptRow} {r : SystemPromptRow}
    (h : r ∈ clearDefaults l) : r.isDefault = false := by
  simp only [clearDefaults, List.mem_map] at h
  obtain ⟨a, _, hr⟩ := h
  by_cases ha : a.isDefault <;> (simp [ha] at hr; simp [← hr, ha])

theorem clearDefaults_map_id (l : List SystemPromptRow) :
    (clearDefaults l).map SystemPromptRow.id = l.map SystemPromptRow.id := by
  induction l with
  | nil => rfl
  | cons a t ih =>
    simp only [clearDefaults, List.map_cons] at *
    by_cases h : a.isDefault <;> simp [h, ih]

theorem countDefaults_singleton_le (r : SystemPromptRow) : countDefaults [r] ≤ 1 := by
  unfold countDefaults
  by_cases h : r.isDefault <;> simp [h]

theorem countDefaults_filter_le (q : SystemPromptRow → Bool) (l : List SystemPromptRow) :
    countDefaults (l.filter q) ≤ countDefaults l :=
  List.Sublist.length_le (List.Sublist.filter _ (List.filter_sublist l))

theorem countDefaults_map_le (g : SystemPromptRow → SystemPromptRow)
    (l : List SystemPromptRow)
    (h : ∀ r ∈ l, (g r).isDefault = true → r.isDefault = true) :
    countDefaults (l.map g) ≤ countDefaults l := by
  unfold countDefaults
  rw [List.filter_map, List.length_map]
  exact length_filter_mono l _ _ (fun a ha hp => h a ha (by simpa using hp))

/-- C1: every system-prompt operation preserves the at-most-one-default
invariant (over states whose serial ids are distinct, as a primary key
guarantees): a write that sets isDefault first clears all defaults, a write
that does not set it cannot raise the default count, and a delete only
removes rows. -/
theorem systemPrompt_single_default_invariant
    (t : PromptTable) (p : InsertSystemPrompt) (u : UpdateSystemPrompt)
    (i now : Nat) (hnd : promptIdsNodup t) (hinv : atMostOneDefault t) :
    atMostOneDefault (createSystemPrompt p now t).2 ∧
    atMostOneDefault (updateSystemPrompt i u t).2 ∧
    atMostOneDefault (deleteSystemPrompt i t).2 := by
  refine ⟨?_, ?_, ?_⟩
  · unfold atMostOneDefault createSystemPrompt
    by_cases hd : truthyB p.isDefault = true
    · simp only [hd, if_true]
      rw [countDefaults_append, countDefaults_clearDefaults, Nat.zero_add]
      exact countDefaults_singleton_le _
    · rw [Bool.not_eq_true] at hd
      simp only [hd, Bool.false_eq_true, if_neg, not_false_iff]
      rw [countDefaults_append_single_false]
      · exact hinv
      · exact getD_false_of_truthyB_false hd
  · unfold atMostOneDefault updateSystemPrompt
    by_cases hd : truthyB u.isDefault = true
    · have hu : u.isDefault = some true := truthyB_some_true hd
      simp only [hd, if_true]
      unfold countDefaults
      rw [List.filter_map, List.length_map]
      refine le_trans (length_filter_mono _ _ (fun r => r.id == i) ?_)
        (countId_le_one _ i ?_)
      · intro a ha hp
        by_cases hid : a.id == i
        · exact hid
        · exfalso
          simp only [Function.comp, hid, Bool.false_eq_true, if_neg, not_false_iff] at hp
          rw [clearDefaults_mem_isDefault ha] at hp
          exact Bool.false_ne_true hp
      · rw [clearDefaults_map_id]
        exact hnd
    · rw [Bool.not_eq_true] at hd
      simp only [hd, Bool.false_eq_true, if_neg, not_false_iff]
      refine le_trans (countDefaults_map_le _ _ ?_) hinv
      intro r _ hr
      by_cases hid : r.id == i
      · simp only [hid, if_true, applyPromptUpdate] at hr
        rcases truthyB_false_cases hd with h1 | h1
        · simp [h1] at hr
          exact hr
        · simp [h1] at hr
      · simpa [hid] using hr
  · unfold atMostOneDefault deleteSystemPrompt
    cases hf : t.rows.find? (fun r => r.id == i) with
    | none => exact le_trans (countDefaults_filter_le _ _) hinv
    | some r =>
      by_cases hrd : r.isDefault
      · simp only [hrd, if_true]
        exact hinv
      · simp only [hrd, Bool.false_eq_true, if_neg, not_false_iff]
        exact le_trans (countDefaults_filter_le _ _) hinv

/-- C10: deleting the default system prompt throws
"Cannot delete the default system prompt" and leaves the table unchanged;
deleting a non-default or missing prompt removes at most the row with the
given id and returns true. -/
theorem deleteSystemPrompt_default_protected (t : PromptTable) (i : Nat) :
    (∀ r, t.rows.find? (fun r => r.id == i) = some r → r.isDefault = true →
       deleteSystemPrompt i t =
         (Except.error "Cannot delete the default system prompt", t)) ∧
    ((∀ r, t.rows.find? (fun r => r.id == i) = some r → r.isDefault = false) →
       deleteSystemPrompt i t =
         (Except.ok true, { t with rows := t.rows.filter (fun r => r.id != i) })) := by
  constructor
  · intro r hr hd
    unfold deleteSystemPrompt
    rw [hr]
    simp [hd]
  · intro h
    unfold deleteSystemPrompt
    cases hf : t.rows.find? (fun r => r.id == i) with
    | none => rfl
    | some r => simp [h r hf]

/-- C9: createMessage appends exactly the new message row and, as its only
other effect, refreshes updatedAt on the parent session: sessions with a
different id are returned unchanged (same position, same fields), and the
parent session keeps every field except updatedAt. -/
theorem createMessage_frame (m : InsertMessage) (now : Nat) (db : ChatStore) :
    (createMessage m now db).2.messages = db.messages ++ [(createMessage m now db).1] ∧
    (createMessage m now db).2.sessions.length = db.sessions.length ∧
    (∀ (i : Nat) (s0 : ChatSessionRow), db.sessions[i]? = some s0 →
       s0.id ≠ m.sessionId → (createMessage m now db).2.sessions[i]? = some s0) ∧
    (∀ (i : Nat) (s0 : ChatSessionRow), db.sessions[i]? = some s0 →
       s0.id = m.sessionId →
       (createMessage m now db).2.sessions[i]? = some { s0 with updatedAt := now }) := by
  refine ⟨rfl, by simp [createMessage], ?_, ?_⟩
  · intro i s0 h hne
    simp [createMessage, List.getElem?_map, h, hne]
  · intro i s0 h heq
    simp [createMessage, List.getElem?_map, h, heq]

/-- C3: inserting a file change (whose insert schema has no status field)
produces a row whose status is "pending", carrying exactly the supplied
repositoryId, path, content and commitMessage. -/
theorem createGithubFileChange_default_pending (ins : InsertGithubFileChange)
    (now : Nat) (db : GithubStore) :
    ((createGithubFileChange ins now db).1).status = "pending" ∧
    (createGithubFileChange ins now db).1 ∈
      (createGithubFileChange ins now db).2.fileChanges ∧
    ((createGithubFileChange ins now db).1).repositoryId = ins.repositoryId ∧
    ((createGithubFileChange ins now db).1).path = ins.path ∧
    ((createGithubFileChange ins now db).1).content = ins.content ∧
    ((createGithubFileChange ins now db).1).commitMessage = ins.commitMessage := by
  refine ⟨rfl, ?_, rfl, rfl, rfl, rfl⟩
  simp [createGithubFileChange]

/-- C4: deleting a credentials row removes exactly that row, every repository
referencing it, and every file change referencing one of those repositories;
rows belonging to other credentials survive. -/
theorem deleteGithubCredentials_cascade (db : GithubStore) (i : Nat) :
    (∀ c : GithubCredentialsRow,
       c ∈ (deleteGithubCredentials i db).credentials ↔
         c ∈ db.credentials ∧ c.id ≠ i) ∧
    (∀ r : GithubRepositoryRow,
       r ∈ (deleteGithubCredentials i db).repositories ↔
         r ∈ db.repositories ∧ r.credentialsId ≠ i) ∧
    (∀ f : GithubFileChangeRow,
       f ∈ (deleteGithubCredentials i db).fileChanges ↔
         f ∈ db.fileChanges ∧
           ¬ ∃ r ∈ db.repositories, r.credentialsId = i ∧ r.id = f.repositoryId) := by
  refine ⟨?_, ?_, ?_⟩
  · intro c
    simp [deleteGithubCredentials, List.mem_filter]
  · intro r
    simp [deleteGithubCredentials, List.mem_filter]
  · intro f
    simp only [deleteGithubCredentials, List.mem_filter, Bool.not_eq_true',
      List.any_eq_false, Bool.and_eq_true, beq_iff_eq, not_and]
    constructor
    · rintro ⟨hf, hno⟩
      refine ⟨hf, ?_⟩
      rintro ⟨r, hr, hci, hid⟩
      exact hno r hr hci hid
    · rintro ⟨hf, hno⟩
      exact ⟨hf, fun r hr hci hid => hno ⟨r, hr, hci, hid⟩⟩

/-- C8: the credentials listing never exposes tokens: every response element
is the four-field projection of a stored row, and two database states whose
credentials agree on everything except the token produce identical responses. -/
theorem listCredentials_no_token_leak (db1 db2 : GithubStore)
    (h : db1.credentials.map (fun c => (c.id, c.username, c.createdAt, c.updatedAt)) =
         db2.credentials.map (fun c => (c.id, c.username, c.createdAt, c.updatedAt))) :
    listCredentialsEndpoint db1 = listCredentialsEndpoint db2 ∧
    ∀ s ∈ listCredentialsEndpoint db1, ∃ c ∈ db1.credentials,
      s.id = c.id ∧ s.username = c.username ∧ s.createdAt = c.createdAt ∧
        s.updatedAt = c.updatedAt := by
  constructor
  · have e : ∀ db : GithubStore, listCredentialsEndpoint db =
        (db.credentials.map (fun c => (c.id, c.username, c.createdAt, c.updatedAt))).map
          (fun t => { id := t.1, username := t.2.1, createdAt := t.2.2.1,
                      updatedAt := t.2.2.2 }) := by
      intro db
      rw [List.map_map]
      rfl
    rw [e db1, e db2, h]
  · intro s hs
    simp only [listCredentialsEndpoint, List.mem_map] at hs
    obtain ⟨c, hc, heq⟩ := hs
    exact ⟨c, hc, by rw [← heq], by rw [← heq], by rw [← heq], by rw [← heq]⟩

theorem find?_update_map (l : List GithubFileChangeRow) (i : Nat)
    (g : GithubFileChangeRow → GithubFileChangeRow) (hg : ∀ f, (g f).id = f.id) :
    (l.map (fun f => if f.id == i then g f else f)).find? (fun f => f.id == i) =
      (l.find? (fun f => f.id == i)).map g := by
  induction l with
  | nil => rfl
  | cons a t ih =>
    simp only [List.map_cons]
    by_cases ha : (a.id == i) = true
    · rw [if_pos ha]
      rw [List.find?_cons_of_pos (p := fun f : GithubFileChangeRow => f.id == i) _
            (by show ((g a).id == i) = true; rw [hg]; exact ha),
          List.find?_cons_of_pos (p := fun f : GithubFileChangeRow => f.id == i) _ ha, Option.map_some']
    · rw [if_neg (by simpa using ha)]
      rw [List.find?_cons_of_neg (p := fun f : GithubFileChangeRow => f.id == i) _ (by simpa using ha),
          List.find?_cons_of_neg (p := fun f : GithubFileChangeRow => f.id == i) _ (by simpa using ha)]
      exact ih

theorem statusInvariant_update (db : GithubStore) (i : Nat) (st : String)
    (cu : Option String) (now : Nat)
    (hst : st = "pending" ∨ st = "committed" ∨ st = "failed")
    (hinv : statusInvariant db) :
    statusInvariant (updateGithubFileChangeStatus i st cu now db).2 := by
  intro f hf
  simp only [updateGithubFileChangeStatus, List.mem_map] at hf
  obtain ⟨a, ha, heq⟩ := hf
  by_cases hid : (a.id == i) = true
  · rw [← heq, if_pos hid]
    exact hst
  · rw [← heq, if_neg (by simpa using hid)]
    exact hinv a ha

/-- C2: for a stored file change whose repository and credentials exist and
whose credentials initialize successfully, the commit endpoint is a single
attempt with no retry: commitFile success yields 200 and stores status
"committed" plus the commit url on the row; commitFile failure yields 500 and
stores status "failed".  Statuses always stay within
pending/committed/failed, and the other file-change operations (create,
delete) never alter the status of an existing row. -/
theorem commitEndpoint_spec (db : GithubStore) (i now : Nat)
    (outcome : CommitOutcome) (fc : GithubFileChangeRow)
    (repo : GithubRepositoryRow) (cred : GithubCredentialsRow)
    (hfc : db.fileChanges.find? (fun f => f.id == i) = some fc)
    (hrepo : db.repositories.find? (fun r => r.id == fc.repositoryId) = some repo)
    (hcred : db.credentials.find? (fun c => c.id == repo.credentialsId) = some cred) :
    (∀ u, outcome.success = true → outcome.url = some u →
       (commitEndpoint i true outcome now db).1 = 200 ∧
       (commitEndpoint i true outcome now db).2.fileChanges.find? (fun f => f.id == i) =
         some { fc with status := "committed", commitUrl := some u, updatedAt := now }) ∧
    (outcome.success = false →
       (commitEndpoint i true outcome now db).1 = 500 ∧
       (commitEndpoint i true outcome now db).2.fileChanges.find? (fun f => f.id == i) =
         some { fc with status := "failed", updatedAt := now }) ∧
    (statusInvariant db → statusInvariant (commitEndpoint i true outcome now db).2) ∧
    (∀ ins now2, statusInvariant db →
       statusInvariant (createGithubFileChange ins now2 db).2) ∧
    (statusInvariant db → statusInvariant (deleteGithubFileChange i db)) ∧
    (∀ ins now2 f, f ∈ db.fileChanges →
       f ∈ (createGithubFileChange ins now2 db).2.fileChanges) ∧
    (∀ j f, f ∈ (deleteGithubFileChange j db).fileChanges → f ∈ db.fileChanges) := by
  have hmainS : outcome.success = true →
      commitEndpoint i true outcome now db =
        (200, (updateGithubFileChangeStatus i "committed" outcome.url now db).2) := by
    intro hs
    unfold commitEndpoint
    simp only [hfc, hrepo, hcred]
    simp [hs]
  have hmainF : outcome.success = false →
      commitEndpoint i true outcome now db =
        (500, (updateGithubFileChangeStatus i "failed" none now db).2) := by
    intro hs
    unfold commitEndpoint
    simp only [hfc, hrepo, hcred]
    simp [hs]
  refine ⟨?_, ?_, ?_, ?_, ?_, ?_, ?_⟩
  · intro u hs hu
    rw [hmainS hs]
    refine ⟨rfl, ?_⟩
    simp only [updateGithubFileChangeStatus, hu]
    rw [find?_update_map db.fileChanges i
          (fun f => { f with status := "committed", commitUrl := some u, updatedAt := now })
          (fun f => rfl),
        hfc]
    rfl
  · intro hs
    rw [hmainF hs]
    refine ⟨rfl, ?_⟩
    simp only [updateGithubFileChangeStatus]
    rw [find?_update_map db.fileChanges i
          (fun f => { f with status := "failed", commitUrl := f.commitUrl, updatedAt := now })
          (fun f => rfl),
        hfc]
    rfl
  · intro hinv
    by_cases hs : outcome.success = true
    · rw [hmainS hs]
      exact statusInvariant_update db i "committed" outcome.url now (Or.inr (Or.inl rfl)) hinv
    · rw [hmainF (by simpa using hs)]
      exact statusInvariant_update db i "failed" none now (Or.inr (Or.inr rfl)) hinv
  · intro ins now2 hinv f hf
    simp only [createGithubFileChange, List.mem_append, List.mem_singleton] at hf
    rcases hf with hf | rfl
    · exact hinv f hf
    · exact Or.inl rfl
  · intro hinv f hf
    exact hinv f (List.mem_of_mem_filter hf)
  · intro ins now2 f hf
    simp [createGithubFileChange, hf]
  · intro j f hf
    exact List.mem_of_mem_filter hf

theorem validateMessages_isSome_of_bad (msgs : List ChatMessageJson)
    (h : ∃ m ∈ msgs, m.role = none ∨ m.content = none ∨
       ∃ s, m.role = some s ∧ s ∉ (["user", "assistant", "system"] : List String)) :
    (validateMessages msgs).isSome = true := by
  induction msgs with
  | nil =>
    obtain ⟨m, hm, _⟩ := h
    exact absurd hm (List.not_mem_nil m)
  | cons a rest ih =>
    obtain ⟨m, hm, hbad⟩ := h
    by_cases hfc : (jsFalsyStr a.role || jsFalsyStr a.content) = true
    · simp [validateMessages, hfc]
    · rcases List.mem_cons.mp hm with rfl | hmr
      · rcases hbad with hr | hc | ⟨s, hs, hnot⟩
        · exact absurd (by simp [jsFalsyStr, hr]) hfc
        · exact absurd (by simp [jsFalsyStr, hc]) hfc
        · have hco : (["user", "assistant", "system"].contains (m.role.getD "")) = false := by
            rw [hs, Option.getD_some]
            simpa using hnot
          simp only [validateMessages]
          rw [if_neg hfc, if_pos (by rw [hco]; rfl)]
          rfl
      · simp only [validateMessages]
        rw [if_neg hfc]
        by_cases hct : (["user", "assistant", "system"].contains (a.role.getD "")) = true
        · rw [if_neg (by rw [hct]; simp)]
          exact ih ⟨m, hmr, hbad⟩
        · have hcf : (["user", "assistant", "system"].contains (a.role.getD "")) = false := by
            simpa using hct
          rw [if_pos (by rw [hcf]; rfl)]
          rfl

/-- C6: a malformed POST /api/chat body — messages absent or not an array,
a message missing role or content, or a role outside user/assistant/system —
is rejected with 400 and a message payload before any session or message
row is written and before the OpenAI call. -/
theorem chatHandler_rejects_malformed (body : ChatRequestBody) (hasApiKey : Bool)
    (newSessionId : Nat) (ai : OpenAIOutcome) :
    ((body.messages = none ∨ body.messages = some MessagesField.notArray) →
       chatHandler body hasApiKey newSessionId ai =
         ({ status := 400, message := some "Invalid messages format" }, [])) ∧
    (∀ msgs, body.messages = some (MessagesField.arr msgs) →
       (∃ m ∈ msgs, m.role = none ∨ m.content = none ∨
          ∃ s, m.role = some s ∧ s ∉ (["user", "assistant", "system"] : List String)) →
       ∃ e, chatHandler body hasApiKey newSessionId ai =
         ({ status := 400, message := some e }, [])) := by
  constructor
  · rintro (h | h) <;> simp [chatHandler, h]
  · intro msgs hmsg hbad
    obtain ⟨e, he⟩ := Option.isSome_iff_exists.mp (validateMessages_isSome_of_bad msgs hbad)
    exact ⟨e, by simp [chatHandler, hmsg, he]⟩

/-- C5: when the request body is valid, the API key is configured and the
OpenAI call throws, the catch block maps the error's status passthrough:
401 answers 401 "Invalid API key", 429 answers 429 "Rate limit exceeded",
500 answers 500 "OpenAI service error", and any other exception answers 500
"Failed to process chat request". -/
theorem chatHandler_vendor_error_mapping (msgs : List ChatMessageJson)
    (sp : Option String) (sid : Option Nat) (newSessionId : Nat) (e : Option Nat)
    (hv : validateMessages msgs = none) :
    (e = some 401 →
       (chatHandler ⟨some (MessagesField.arr msgs), sp, sid⟩ true newSessionId
          (OpenAIOutcome.err e)).1 = { status := 401, message := some "Invalid API key" }) ∧
    (e = some 429 →
       (chatHandler ⟨some (MessagesField.arr msgs), sp, sid⟩ true newSessionId
          (OpenAIOutcome.err e)).1 =
         { status := 429, message := some "Rate limit exceeded" }) ∧
    (e = some 500 →
       (chatHandler ⟨some (MessagesField.arr msgs), sp, sid⟩ true newSessionId
          (OpenAIOutcome.err e)).1 =
         { status := 500, message := some "OpenAI service error" }) ∧
    (∀ n, e = some n → n ≠ 401 → n ≠ 429 → n ≠ 500 →
       (chatHandler ⟨some (MessagesField.arr msgs), sp, sid⟩ true newSessionId
          (OpenAIOutcome.err e)).1 =
         { status := 500, message := some "Failed to process chat request" }) ∧
    (e = none →
       (chatHandler ⟨some (MessagesField.arr msgs), sp, sid⟩ true newSessionId
          (OpenAIOutcome.err e)).1 =
         { status := 500, message := some "Failed to process chat request" }) := by
  have hmain : (chatHandler ⟨some (MessagesField.arr msgs), sp, sid⟩ true newSessionId
      (OpenAIOutcome.err e)).1 = mapChatError e := by
    simp [chatHandler, hv]
  refine ⟨?_, ?_, ?_, ?_, ?_⟩
  · intro h
    rw [hmain, h]
    rfl
  · intro h
    rw [hmain, h]
    rfl
  · intro h
    rw [hmain, h]
    rfl
  · intro n h h1 h2 h3
    rw [hmain, h]
    simp [mapChatError, h1, h2, h3]
  · intro h
    rw [hmain, h]
    rfl

theorem scanHeader_eq_none_iff (h : List Char → Option Nat) (s : List Char) :
    scanHeader h s = none ↔ ∀ k, h (s.drop k) = none := by
  induction s with
  | nil =>
    cases hh : h [] with
    | none => simp [scanHeader, hh]
    | some l =>
      simp only [scanHeader, hh, Option.map_some']
      constructor
      · intro hc
        exact absurd hc (by simp)
      · intro hall
        exact absurd (hall 0) (by simp [hh])
  | cons c cs ih =>
    cases hh : h (c :: cs) with
    | some l =>
      simp only [scanHeader, hh]
      constructor
      · intro hc
        exact absurd hc (by simp)
      · intro hall
        exact absurd (hall 0) (by simp [hh])
    | none =>
      simp only [scanHeader, hh, Option.map_eq_none']
      rw [ih]
      constructor
      · intro hall k
        cases k with
        | zero => simpa using hh
        | succ n => simpa using hall n
      · intro hall k
        simpa using hall (k + 1)

theorem scanHeader_eq_some_iff (h : List Char → Option Nat) (s : List Char)
    (i l : Nat) :
    scanHeader h s = some (i, l) ↔
      (h (s.drop i) = some l ∧ ∀ k, k < i → h (s.drop k) = none) := by
  induction s generalizing i with
  | nil =>
    cases hh : h [] with
    | none =>
      simp only [scanHeader, hh, Option.map_none']
      constructor
      · intro hc
        exact absurd hc (by simp)
      · rintro ⟨h1, _⟩
        rw [List.drop_nil, hh] at h1
        exact absurd h1 (by simp)
    | some l0 =>
      simp only [scanHeader, hh, Option.map_some']
      cases i with
      | zero => simp [hh]
      | succ n =>
        constructor
        · intro hc
          exact absurd hc (by simp)
        · rintro ⟨_, h2⟩
          exact absurd (h2 0 (Nat.succ_pos n)) (by simp [List.drop_nil, hh])
  | cons c cs ih =>
    cases hh : h (c :: cs) with
    | some l0 =>
      simp only [scanHeader, hh]
      cases i with
      | zero => simp [hh]
      | succ n =>
        constructor
        · intro hc
          exact absurd hc (by simp)
        · rintro ⟨_, h2⟩
          exact absurd (h2 0 (Nat.succ_pos n)) (by simp [hh])
    | none =>
      simp only [scanHeader, hh]
      cases i with
      | zero =>
        constructor
        · intro hc
          rw [Option.map_eq_some'] at hc
          obtain ⟨p, _, hp⟩ := hc
          exact absurd hp (by simp [Prod.ext_iff])
        · rintro ⟨h1, _⟩
          rw [List.drop_zero, hh] at h1
          exact absurd h1 (by simp)
      | succ n =>
        rw [Option.map_eq_some']
        constructor
        · rintro ⟨p, hp, hpe⟩
          obtain ⟨pi, pl⟩ := p
          simp only [Prod.mk.injEq, Nat.succ.injEq] at hpe
          obtain ⟨hpi, hpl⟩ := hpe
          have hpi' : pi = n := by omega
          subst hpi'
          subst hpl
          rw [ih] at hp
          obtain ⟨hp1, hp2⟩ := hp
          refine ⟨by simpa using hp1, ?_⟩
          intro k hk
          cases k with
          | zero => simpa using hh
          | succ m => simpa using hp2 m (by omega)
        · rintro ⟨h1, h2⟩
          refine ⟨(n, l), ?_, rfl⟩
          rw [ih]
          exact ⟨by simpa using h1,
            fun k hk => by simpa using h2 (k + 1) (Nat.succ_lt_succ hk)⟩

theorem firstStopIdx_spec (stops : List (List Char)) (s : List Char) :
    firstStopIdx stops s ≤ s.length ∧
    (firstStopIdx stops s = s.length ∨
       stopsAtB stops (s.drop (firstStopIdx stops s)) = true) ∧
    ∀ k, k < firstStopIdx stops s → stopsAtB stops (s.drop k) = false := by
  induction s with
  | nil =>
    refine ⟨Nat.le_refl _, Or.inl rfl, ?_⟩
    intro k hk
    simp [firstStopIdx] at hk
  | cons c cs ih =>
    by_cases hb : stopsAtB stops (c :: cs) = true
    · have hidx : firstStopIdx stops (c :: cs) = 0 := by simp [firstStopIdx, hb]
      refine ⟨by simp [hidx], ?_, ?_⟩
      · right
        rw [hidx]
        simpa using hb
      · intro k hk
        rw [hidx] at hk
        exact absurd hk (Nat.not_lt_zero k)
    · have hb' : stopsAtB stops (c :: cs) = false := by simpa using hb
      have hidx : firstStopIdx stops (c :: cs) = firstStopIdx stops cs + 1 := by
        simp [firstStopIdx, hb']
      obtain ⟨ih1, ih2, ih3⟩ := ih
      refine ⟨?_, ?_, ?_⟩
      · rw [hidx]
        simpa using Nat.succ_le_succ ih1
      · rw [hidx]
        rcases ih2 with he | ht
        · left
          simp [he]
        · right
          simpa using ht
      · intro k hk
        rw [hidx] at hk
        cases k with
        | zero => simpa using hb'
        | succ n => simpa using ih3 n (by omega)

theorem firstStopIdx_eq_of_minimal (stops : List (List Char)) (b : List Char)
    (j : Nat) (hle : j ≤ b.length)
    (hst : j = b.length ∨ stopsAtB stops (b.drop j) = true)
    (hmin : ∀ k, k < j → stopsAtB stops (b.drop k) = false) :
    firstStopIdx stops b = j := by
  obtain ⟨hle', hst', hmin'⟩ := firstStopIdx_spec stops b
  rcases Nat.lt_trichotomy (firstStopIdx stops b) j with hlt | he | hgt
  · rcases hst' with he' | ht'
    · omega
    · rw [hmin _ hlt] at ht'
      exact absurd ht' (by simp)
  · exact he
  · rcases hst with he' | ht'
    · omega
    · rw [hmin' _ hgt] at ht'
      exact absurd ht' (by simp)

/-- C7: parseAIResponse is the fixed-format extraction the spec describes.
The answer is absent exactly when no (case-insensitive) **Answer** header
occurs; given the leftmost **Answer** header, the answer is the trimmed text
strictly between the header (with its optional dash separator) and the first
following **Steps** / **Next Actions** / **Citations** header or the end of
the string.  The steps list is empty when no **Steps** header occurs, and
otherwise is the **Steps** section — delimited the same way by the first
following **Next Actions** / **Citations** header — split on bullet markers
(•, -, *) at line starts with empty pieces dropped. -/
theorem parseAIResponse_correct (s : List Char) :
    ((parseAIResponse s).answer = none ↔ ∀ i, ¬ answerHeaderAt s i) ∧
    (∀ i, answerHeaderAt s i → (∀ k, k < i → ¬ answerHeaderAt s k) →
       ∀ j, j ≤ (answerBody s i).length →
         (j = (answerBody s i).length ∨ answerStopAt (answerBody s i) j) →
         (∀ k, k < j → ¬ answerStopAt (answerBody s i) k) →
         (parseAIResponse s).answer = some (jsTrim ((answerBody s i).take j))) ∧
    ((∀ i, ¬ stepsHeaderAt s i) → (parseAIResponse s).steps = []) ∧
    (∀ i, stepsHeaderAt s i → (∀ k, k < i → ¬ stepsHeaderAt s k) →
       ∀ j, j ≤ (stepsBody s i).length →
         (j = (stepsBody s i).length ∨ stepsStopAt (stepsBody s i) j) →
         (∀ k, k < j → ¬ stepsStopAt (stepsBody s i) k) →
         (parseAIResponse s).steps = extractBulletPoints ((stepsBody s i).take j)) := by
  refine ⟨?_, ?_, ?_, ?_⟩
  · simp only [parseAIResponse, Option.map_eq_none']
    rw [scanHeader_eq_none_iff]
    constructor
    · intro hall i hci
      unfold answerHeaderAt at hci
      have := hall i
      simp [plainHdr, hci] at this
    · intro hall k
      have := hall k
      unfold answerHeaderAt at this
      simp only [plainHdr, ite_eq_right_iff]
      intro hci
      exact absurd hci this
  · intro i hat hmin j hjle hjst hjmin
    unfold answerHeaderAt at hat
    have hscan : scanHeader (plainHdr kAnswer) s = some (i, kAnswer.length) := by
      rw [scanHeader_eq_some_iff]
      refine ⟨by simp [plainHdr, hat], ?_⟩
      intro k hk
      have := hmin k hk
      unfold answerHeaderAt at this
      simp only [plainHdr, ite_eq_right_iff]
      intro hci
      exact absurd hci this
    have hfsi : firstStopIdx [kSteps, kNextActs, kCitations] (answerBody s i) = j := by
      apply firstStopIdx_eq_of_minimal _ _ j hjle
      · rcases hjst with he | ht
        · exact Or.inl he
        · exact Or.inr ht
      · intro k hk
        have := hjmin k hk
        unfold answerStopAt at this
        simpa using this
    simp only [parseAIResponse, hscan, Option.map_some', sectionCapture]
    rw [show skipWsDash (s.drop (i + kAnswer.length)) = answerBody s i from rfl, hfsi]
  · intro hnone
    have hscan : scanHeader (plainHdr kSteps) s = none := by
      rw [scanHeader_eq_none_iff]
      intro k
      have := hnone k
      unfold stepsHeaderAt at this
      simp only [plainHdr, ite_eq_right_iff]
      intro hci
      exact absurd hci this
    simp [parseAIResponse, hscan]
  · intro i hat hmin j hjle hjst hjmin
    unfold stepsHeaderAt at hat
    have hscan : scanHeader (plainHdr kSteps) s = some (i, kSteps.length) := by
      rw [scanHeader_eq_some_iff]
      refine ⟨by simp [plainHdr, hat], ?_⟩
      intro k hk
      have := hmin k hk
      unfold stepsHeaderAt at this
      simp only [plainHdr, ite_eq_right_iff]
      intro hci
      exact absurd hci this
    have hfsi : firstStopIdx [kNextActs, kCitations] (stepsBody s i) = j := by
      apply firstStopIdx_eq_of_minimal _ _ j hjle
      · rcases hjst with he | ht
        · exact Or.inl he
        · exact Or.inr ht
      · intro k hk
        have := hjmin k hk
        unfold stepsStopAt at this
        simpa using this
    simp only [parseAIResponse, hscan, sectionCapture]
    rw [show skipWsDash (s.drop (i + kSteps.length)) = stepsBody s i from rfl, hfsi]

theorem systemPrompt_single_default_invariant_witness :
    atMostOneDefault (createSystemPrompt ⟨some "P", "x", some true⟩ 5 wPromptTable).2 ∧
    atMostOneDefault (updateSystemPrompt 1 ⟨none, none, some true⟩ wPromptTable).2 ∧
    atMostOneDefault (deleteSystemPrompt 1 wPromptTable).2 :=
  systemPrompt_single_default_invariant wPromptTable ⟨some "P", "x", some true⟩
    ⟨none, none, some true⟩ 1 5 (by decide) (by decide)

theorem deleteSystemPrompt_default_protected_witness :
    deleteSystemPrompt 1 wPromptTable =
      (Except.error "Cannot delete the default system prompt", wPromptTable) :=
  (deleteSystemPrompt_default_protected wPromptTable 1).1
    ⟨1, "Default Prompt", "base", true, 0⟩ (by decide) (by decide)

theorem createMessage_frame_witness :
    (createMessage ⟨2, "user", "hi", some 3⟩ 9 wChatStore).2.sessions[1]? =
      some (⟨2, some "B", 0, 9⟩ : ChatSessionRow) :=
  (createMessage_frame ⟨2, "user", "hi", some 3⟩ 9 wChatStore).2.2.2 1
    ⟨2, some "B", 0, 0⟩ (by decide) (by decide)

theorem commitEndpoint_spec_witness :
    (commitEndpoint 1 true ⟨true, some "url"⟩ 7 wGithubStore).1 = 200 ∧
    (commitEndpoint 1 true ⟨true, some "url"⟩ 7 wGithubStore).2.fileChanges.find?
        (fun f => f.id == 1) =
      some ⟨1, 1, "p", "c", "m", "committed", some "url", 0, 7⟩ :=
  (commitEndpoint_spec wGithubStore 1 7 ⟨true, some "url"⟩
      ⟨1, 1, "p", "c", "m", "pending", none, 0, 0⟩
      ⟨1, 1, "o", "r", some "main", none, none, 0, 0⟩
      ⟨1, "u", "t", 0, 0⟩ (by decide) (by decide) (by decide)).1 "url" rfl rfl

theorem createGithubFileChange_default_pending_witness :
    ((createGithubFileChange ⟨1, "pp", "cc", "mm"⟩ 4 wGithubStore).1).status = "pending" :=
  (createGithubFileChange_default_pending ⟨1, "pp", "cc", "mm"⟩ 4 wGithubStore).1

theorem deleteGithubCredentials_cascade_witness :
    (⟨2, 2, "p2", "c2", "m2", "pending", none, 0, 0⟩ : GithubFileChangeRow) ∈
      (deleteGithubCredentials 1 wStoreCascade).fileChanges :=
  ((deleteGithubCredentials_cascade wStoreCascade 1).2.2
      ⟨2, 2, "p2", "c2", "m2", "pending", none, 0, 0⟩).mpr
    ⟨by decide, by decide⟩

theorem listCredentials_no_token_leak_witness :
    listCredentialsEndpoint wStoreTokA = listCredentialsEndpoint wStoreTokB :=
  (listCredentials_no_token_leak wStoreTokA wStoreTokB (by decide)).1

theorem chatHandler_vendor_error_mapping_witness :
    (chatHandler ⟨some (MessagesField.arr [⟨some "user", some "hi"⟩]), some "sp", none⟩
        true 5 (OpenAIOutcome.err (some 401))).1 =
      { status := 401, message := some "Invalid API key" } :=
  (chatHandler_vendor_error_mapping [⟨some "user", some "hi"⟩] (some "sp") none 5
      (some 401) (by decide)).1 rfl

theorem chatHandler_rejects_malformed_witness :
    ∃ e, chatHandler ⟨some (MessagesField.arr [⟨some "alien", some "hi"⟩]), none, none⟩
        true 5 (OpenAIOutcome.ok ⟨[], none⟩) =
      ({ status := 400, message := some e }, []) :=
  (chatHandler_rejects_malformed
      ⟨some (MessagesField.arr [⟨some "alien", some "hi"⟩]), none, none⟩ true 5
      (OpenAIOutcome.ok ⟨[], none⟩)).2 [⟨some "alien", some "hi"⟩] rfl
    ⟨⟨some "alien", some "hi"⟩, by decide, Or.inr (Or.inr ⟨"alien", rfl, by decide⟩)⟩

theorem parseAIResponse_correct_witness :
    (parseAIResponse wParseInput).answer =
      some (jsTrim ((answerBody wParseInput 0).take 3)) :=
  (parseAIResponse_correct wParseInput).2.1 0 (by decide) (by decide) 3 (by decide)
    (by decide) (by decide)
